import Mathlib

/-!
# cmake-build examples: `hello::Responder`, `util::concat_args` and the `main` entry point

A shallow embedding of the C++ sources under `examples/` and the properties
proved about it.

* A `const char*` value is modelled by the characters stored in the buffer it
  points to; reading it as a C string (`std::string(const char*)`,
  `operator<<(std::ostream&, const char*)`) takes the characters before the
  first NUL.
* An output stream (`std::ostringstream`, `std::cout`) is modelled by the
  characters written to it so far.
* `argv` is a list of buffers; reading `argv[i]` outside the list is undefined
  behaviour and is modelled by `none`.
-/

namespace std

/-- The NUL character `charT()`, written by `std::ends`. -/
def NUL : Char := Char.ofNat 0

/-- Reading a `const char*` as a C string: the characters before the first NUL. -/
def c_str (buf : String) : String :=
  ⟨buf.data.takeWhile (fun c => c != NUL)⟩

/-- State of an output stream (`std::ostringstream`, `std::cout`): the
characters written so far. -/
structure ostream where
  buf : String
deriving DecidableEq, Repr

namespace ostream

/-- A default-constructed `std::ostringstream` is empty. -/
def empty : ostream := ⟨""⟩

/-- Stream insertion `os << s` for a `std::string`: all `s.size()` characters are written. -/
def put_string (os : ostream) (s : String) : ostream :=
  ⟨os.buf ++ s⟩

/-- Stream insertion `os << p` for a `const char*`: the characters up to the first NUL are written. -/
def put_cstr (os : ostream) (p : String) : ostream :=
  ⟨os.buf ++ c_str p⟩

/-- Stream manipulator `os << std::ends`: inserts one NUL character. -/
def ends (os : ostream) : ostream :=
  ⟨os.buf.push NUL⟩

/-- Stream manipulator `os << std::endl`: inserts a newline (and flushes). -/
def endl (os : ostream) : ostream :=
  ⟨os.buf.push '\n'⟩

/-- Member `str()`: a copy of the characters written so far. -/
def str (os : ostream) : String := os.buf

end ostream
end std

namespace hello

/-- Class `hello::Responder` (Responder.hpp): one data member, `m_greeting`. -/
structure Responder where
  m_greeting : String
deriving DecidableEq, Repr

namespace Responder

/-- Constructor `Responder::Responder(const char* greeting)`: `m_greeting(greeting)`
copies the C string behind the pointer. -/
def ctor (greeting : String) : Responder :=
  ⟨std.c_str greeting⟩

/-- Constructor call without an argument: the default argument `"Hello"` of the
declaration `Responder(const char* greeting = "Hello")` is passed. -/
def ctor_default : Responder := ctor "Hello"

/-- Method `Responder::respond(const std::string& message) const` (Responder.cpp):
`captured << m_greeting << " " << message << std::ends; return captured.str();` -/
def respond (self : Responder) (message : String) : String :=
  let captured := std.ostream.empty
  let captured := (((captured.put_string self.m_greeting).put_cstr " ").put_string message).ends
  captured.str

end Responder
end hello

namespace util

/-- The loop `for (int i = 1; i < argc; ++i) { const char *arg = argv[i]; captured << arg << " "; }`
of `util::concat_args` (StringUtil.hpp), entered with loop variable `i`. -/
def concat_args.loop (argc : Int) (argv : List String) (i : Nat) (captured : std.ostream) :
    Option std.ostream :=
  if (i : Int) < argc then
    match argv[i]? with
    | none => none
    | some arg => concat_args.loop argc argv (i + 1) ((captured.put_cstr arg).put_cstr " ")
  else
    some captured
termination_by (argc - i).toNat
decreasing_by omega

/-- Function `util::concat_args(int argc, char** argv)` (StringUtil.hpp). -/
def concat_args (argc : Int) (argv : List String) : Option String :=
  match concat_args.loop argc argv 1 std.ostream.empty with
  | none => none
  | some captured => some captured.str

end util

namespace hello_main

/-- Function `main(int argc, char** argv)` of program_hello/hello_main.cpp; `cout` is
the state of `std::cout` on entry, the result is its state on return and the
exit code. -/
def main (argc : Int) (argv : List String) (cout : std.ostream) : Option (std.ostream × Int) :=
  let responder := hello.Responder.ctor "Hello"
  match (if argc > 1 then util.concat_args argc argv else some (std.c_str "Alice")) with
  | none => none
  | some args =>
    let response := responder.respond args
    let cout := ((cout.put_cstr "RESPONDER: ").put_string response).endl
    some (cout, 0)

end hello_main

namespace test_Responder

/-- Function `main(int argc, char** argv)` of library_hello/tests/hello/test_Responder.cpp
(the copy of `util::concat_args` in that file is disabled by `#if 0`, the one
of StringUtil.hpp is called); `cout` is the state of `std::cout` on entry, the
result is its state on return and the exit code. -/
def main (argc : Int) (argv : List String) (cout : std.ostream) : Option (std.ostream × Int) :=
  let responder := hello.Responder.ctor "Hello"
  match (if argc > 1 then util.concat_args argc argv else some (std.c_str "Alice")) with
  | none => none
  | some args =>
    let response := responder.respond args
    let cout := ((cout.put_cstr "RESPONDER: ").put_string response).endl
    some (cout, 0)

end test_Responder

/-- What the specification says the argument joiner produces: each argument
followed by one space, in input order. -/
def spec_join : List String → String
  | [] => ""
  | a :: rest => a ++ " " ++ spec_join rest

namespace hello.Responder

/-- The storage a call `self.respond(message)` can reach: the data member
`m_greeting` of `*this`, the caller's string bound to the reference `message`,
and the local stream `captured`. -/
inductive Loc where
  | m_greeting
  | message
  | captured
deriving DecidableEq, Repr

/-- Contents of the storage during a call of `respond`: the characters held at
each location. -/
abbrev Memory := Loc → String

/-- Storage on entry to `self.respond(message)`; the local `captured` does not
exist yet, its slot holds `junk`. -/
def respond_entry (self : Responder) (message junk : String) : Memory
  | .m_greeting => self.m_greeting
  | .message => message
  | .captured => junk

/-- Declaration `std::ostringstream dst;`: the stream at `dst` starts empty. -/
def declare_stream (dst : Loc) (mem : Memory) : Memory :=
  Function.update mem dst std.ostream.empty.buf

/-- Statement `dst << src` for a `std::string` held at `src`: writes to the stream
at `dst` what it reads at `src`. -/
def insert_string (dst src : Loc) (mem : Memory) : Memory :=
  Function.update mem dst ((std.ostream.mk (mem dst)).put_string (mem src)).buf

/-- Statement `dst << lit` for a string literal `lit`. -/
def insert_cstr (dst : Loc) (lit : String) (mem : Memory) : Memory :=
  Function.update mem dst ((std.ostream.mk (mem dst)).put_cstr lit).buf

/-- Statement `dst << std::ends`. -/
def insert_ends (dst : Loc) (mem : Memory) : Memory :=
  Function.update mem dst (std.ostream.mk (mem dst)).ends.buf

/-- The statements of the body of `Responder::respond` (Responder.cpp), run on the
storage: `std::ostringstream captured;` then
`captured << m_greeting << " " << message << std::ends;`. -/
def respond_body (mem : Memory) : Memory :=
  let mem := declare_stream .captured mem
  let mem := insert_string .captured .m_greeting mem
  let mem := insert_cstr .captured " " mem
  let mem := insert_string .captured .message mem
  let mem := insert_ends .captured mem
  mem

/-- A call `self.respond(message)` run statement by statement on the storage:
the returned string `captured.str()` and the state of `*this` after the call. -/
def respond_call (self : Responder) (message : String) : String × Responder :=
  let mem := respond_body (respond_entry self message "")
  ((std.ostream.mk (mem .captured)).str, ⟨mem .m_greeting⟩)

/-- A sequence of `respond` calls on one object, in order: the state of the
object after the last call. -/
def after_calls (self : Responder) : List String → Responder
  | [] => self
  | message :: rest => after_calls (self.respond_call message).2 rest

end hello.Responder

/-! ## Auxiliary lemmas -/

theorem std.c_str_eq_self (s : String) (h : std.NUL ∉ s.data) : std.c_str s = s := by
  unfold std.c_str
  have : s.data.takeWhile (fun c => c != std.NUL) = s.data := by
    rw [List.takeWhile_eq_self_iff]
    intro c hc
    simp only [bne_iff_ne, ne_eq]
    rintro rfl
    exact h hc
  rw [this]

theorem std.c_str_space : std.c_str " " = " " := by decide

theorem hello.Responder.respond_eq (self : hello.Responder) (message : String) :
    self.respond message = self.m_greeting ++ " " ++ message ++ "\x00" := by
  simp only [hello.Responder.respond, std.ostream.str, std.ostream.ends, std.ostream.put_string,
    std.ostream.put_cstr, std.ostream.empty, std.c_str_space]
  apply String.ext
  simp only [String.data_push, String.data_append, List.append_assoc]
  rfl

theorem hello.Responder.respond_length (self : hello.Responder) (message : String) :
    (self.respond message).length = self.m_greeting.length + message.length + 2 := by
  have h1 : " ".length = 1 := rfl
  have h2 : "\x00".length = 1 := rfl
  rw [hello.Responder.respond_eq]
  simp only [String.length_append, h1, h2]
  omega

theorem util.concat_args.loop_eq (argc : Int) (rest : List String) :
    ∀ (pre : List String) (captured : std.ostream),
      argc = ((pre.length + rest.length : Nat) : Int) →
      util.concat_args.loop argc (pre ++ rest) pre.length captured
        = some ⟨captured.buf ++ spec_join (rest.map std.c_str)⟩ := by
  induction rest with
  | nil =>
    intro pre captured h
    rw [util.concat_args.loop]
    have : ¬ ((pre.length : Int) < argc) := by simp at h; omega
    simp [this, spec_join]
  | cons a rest ih =>
    intro pre captured h
    rw [util.concat_args.loop]
    have hlt : (pre.length : Int) < argc := by simp at h; omega
    have hget : (pre ++ a :: rest)[pre.length]? = some a := by
      rw [List.getElem?_append_right (Nat.le_refl _)]
      simp
    simp only [hlt, if_true, hget]
    have hpre : pre ++ a :: rest = (pre ++ [a]) ++ rest := by simp
    have hlen : pre.length + 1 = (pre ++ [a]).length := by simp
    rw [hpre, hlen, ih (pre ++ [a]) _ (by simp at h ⊢; omega)]
    simp [std.ostream.put_cstr, std.c_str_space, spec_join, String.append_assoc]

theorem util.concat_args_eq (prog : String) (args : List String) :
    util.concat_args ((args.length : Int) + 1) (prog :: args)
      = some (spec_join (args.map std.c_str)) := by
  have h := util.concat_args.loop_eq ((args.length : Int) + 1) args [prog] std.ostream.empty
    (by simp; omega)
  simp only [List.singleton_append, List.length_singleton] at h
  rw [util.concat_args, h]
  simp [std.ostream.str, std.ostream.empty]

theorem util.concat_args.loop_done (argc : Int) (argv : List String) (i : Nat)
    (captured : std.ostream) (h : argc ≤ i) :
    util.concat_args.loop argc argv i captured = some captured := by
  rw [util.concat_args.loop]
  have : ¬ ((i : Int) < argc) := by omega
  simp [this]

theorem util.concat_args.loop_head (argc : Int) (p q : String) (rest : List String) :
    ∀ (n i : Nat) (captured : std.ostream), (argc - i).toNat = n → 1 ≤ i →
      util.concat_args.loop argc (p :: rest) i captured
        = util.concat_args.loop argc (q :: rest) i captured := by
  intro n
  induction n with
  | zero =>
    intro i captured hn _
    rw [util.concat_args.loop_done _ _ _ _ (by omega),
      util.concat_args.loop_done _ _ _ _ (by omega)]
  | succ n ih =>
    intro i captured hn hi
    obtain ⟨j, rfl⟩ : ∃ j, i = j + 1 := ⟨i - 1, by omega⟩
    rw [util.concat_args.loop, util.concat_args.loop.eq_1 argc (q :: rest)]
    simp only [List.getElem?_cons_succ]
    split
    · cases rest[j]? with
      | none => rfl
      | some arg => exact ih _ _ (by omega) (by omega)
    · rfl

theorem hello_main.main_no_args (argc : Int) (argv : List String) (cout : std.ostream)
    (h : argc ≤ 1) :
    hello_main.main argc argv cout
      = some (⟨cout.buf ++ "RESPONDER: " ++ "Hello Alice\x00" ++ "\n"⟩, 0) := by
  have hgt : ¬ (argc > 1) := by omega
  have hresp : (hello.Responder.ctor "Hello").respond (std.c_str "Alice") = "Hello Alice\x00" := by
    decide
  have hpre : std.c_str "RESPONDER: " = "RESPONDER: " := by decide
  simp only [hello_main.main, hgt, if_false, hresp, std.ostream.endl, std.ostream.put_string,
    std.ostream.put_cstr, hpre]
  congr 2

theorem hello_main.main_args (prog a : String) (args : List String) (cout : std.ostream) :
    hello_main.main (((a :: args).length : Int) + 1) (prog :: a :: args) cout
      = some (⟨cout.buf ++ "RESPONDER: "
          ++ ("Hello" ++ " " ++ spec_join ((a :: args).map std.c_str) ++ "\x00") ++ "\n"⟩, 0) := by
  have hgt : (((a :: args).length : Int) + 1) > 1 := by simp
  have hpre : std.c_str "RESPONDER: " = "RESPONDER: " := by decide
  have hhello : (hello.Responder.ctor "Hello").m_greeting = "Hello" := by decide
  simp only [hello_main.main, hgt, if_true, util.concat_args_eq, hello.Responder.respond_eq,
    std.ostream.endl, std.ostream.put_string, std.ostream.put_cstr, hpre, hhello]
  congr 2

theorem hello.Responder.respond_body_m_greeting (mem : hello.Responder.Memory) :
    hello.Responder.respond_body mem .m_greeting = mem .m_greeting := by
  simp [hello.Responder.respond_body, hello.Responder.insert_ends,
    hello.Responder.insert_string, hello.Responder.insert_cstr,
    hello.Responder.declare_stream, Function.update]

theorem hello.Responder.respond_body_message (mem : hello.Responder.Memory) :
    hello.Responder.respond_body mem .message = mem .message := by
  simp [hello.Responder.respond_body, hello.Responder.insert_ends,
    hello.Responder.insert_string, hello.Responder.insert_cstr,
    hello.Responder.declare_stream, Function.update]

theorem hello.Responder.respond_body_captured (mem : hello.Responder.Memory) :
    hello.Responder.respond_body mem .captured
      = (hello.Responder.mk (mem .m_greeting)).respond (mem .message) := by
  simp [hello.Responder.respond_body, hello.Responder.insert_ends,
    hello.Responder.insert_string, hello.Responder.insert_cstr,
    hello.Responder.declare_stream, Function.update, hello.Responder.respond,
    std.ostream.str]

theorem hello.Responder.respond_call_fst (self : hello.Responder) (message : String) :
    (self.respond_call message).1 = self.respond message := by
  simp only [hello.Responder.respond_call, std.ostream.str,
    hello.Responder.respond_body_captured]
  rfl

theorem hello.Responder.respond_call_snd (self : hello.Responder) (message : String) :
    (self.respond_call message).2 = self := by
  simp only [hello.Responder.respond_call, hello.Responder.respond_body_m_greeting]
  rfl

theorem hello.Responder.after_calls_eq (self : hello.Responder) (messages : List String) :
    self.after_calls messages = self := by
  induction messages with
  | nil => rfl
  | cons message rest ih =>
    rw [hello.Responder.after_calls, hello.Responder.respond_call_snd]
    exact ih

theorem spec_join_cons_data (a : String) (rest : List String) :
    (spec_join (a :: rest)).data = a.data ++ ' ' :: (spec_join rest).data := by
  simp only [spec_join, String.data_append, List.append_assoc]
  rfl

theorem split_at_first_space (a : List Char) :
    ∀ (b r s : List Char), ' ' ∉ a → ' ' ∉ b → a ++ ' ' :: r = b ++ ' ' :: s → a = b ∧ r = s := by
  induction a with
  | nil =>
    intro b r s _ hb h
    cases b with
    | nil => exact ⟨rfl, by simpa using h⟩
    | cons c b =>
      simp only [List.nil_append, List.cons_append, List.cons.injEq] at h
      exact absurd (h.1 ▸ List.mem_cons_self _ _) hb
  | cons c a ih =>
    intro b r s ha hb h
    cases b with
    | nil =>
      simp only [List.nil_append, List.cons_append, List.cons.injEq] at h
      exact absurd (h.1 ▸ List.mem_cons_self _ _) ha
    | cons d b =>
      simp only [List.cons_append, List.cons.injEq] at h
      obtain ⟨hab, hrs⟩ := ih b r s (fun hm => ha (List.mem_cons_of_mem _ hm))
        (fun hm => hb (List.mem_cons_of_mem _ hm)) h.2
      exact ⟨by rw [h.1, hab], hrs⟩

theorem spec_join_injective (xs : List String) :
    ∀ ys : List String, (∀ a ∈ xs, ' ' ∉ a.data) → (∀ a ∈ ys, ' ' ∉ a.data) →
      spec_join xs = spec_join ys → xs = ys := by
  induction xs with
  | nil =>
    intro ys _ _ h
    cases ys with
    | nil => rfl
    | cons b ys =>
      have hd := congrArg String.data h
      rw [spec_join_cons_data] at hd
      have hl := congrArg List.length hd
      simp [spec_join] at hl
      omega
  | cons a xs ih =>
    intro ys hx hy h
    cases ys with
    | nil =>
      have hd := congrArg String.data h
      rw [spec_join_cons_data] at hd
      have hl := congrArg List.length hd
      simp [spec_join] at hl
    | cons b ys =>
      have hd := congrArg String.data h
      rw [spec_join_cons_data, spec_join_cons_data] at hd
      obtain ⟨hab, hrest⟩ := split_at_first_space a.data b.data _ _
        (hx a (List.mem_cons_self _ _)) (hy b (List.mem_cons_self _ _)) hd
      have hxs : xs = ys := ih ys (fun c hc => hx c (List.mem_cons_of_mem _ hc))
        (fun c hc => hy c (List.mem_cons_of_mem _ hc)) (String.ext hrest)
      rw [String.ext hab, hxs]

theorem spec_join_append (xs ys : List String) :
    spec_join (xs ++ ys) = spec_join xs ++ spec_join ys := by
  induction xs with
  | nil => simp [spec_join]
  | cons a xs ih => simp [spec_join, ih, String.append_assoc]

theorem spec_join_length (xs : List String) :
    (spec_join xs).length = (xs.map String.length).sum + xs.length := by
  induction xs with
  | nil => rfl
  | cons a xs ih =>
    have h1 : " ".length = 1 := rfl
    simp only [spec_join, String.length_append, h1, ih, List.map_cons, List.sum_cons,
      List.length_cons]
    omega

theorem std.map_c_str_eq_self (args : List String) (h : ∀ a ∈ args, std.NUL ∉ a.data) :
    args.map std.c_str = args := by
  conv_rhs => rw [← List.map_id args]
  exact List.map_congr_left (fun a ha => std.c_str_eq_self a (h a ha))

/-! ## Claims -/

/-- C1: the response of `Responder("Hello").respond("Alice")` is not
`"Hello Alice"` but `"Hello Alice"` followed by the NUL character written by
`std::ends`; more generally no response equals greeting, space, message, the
response being one character longer. -/
theorem respond_hello_alice_trailing_nul :
    (hello.Responder.ctor "Hello").respond "Alice" = "Hello Alice\x00"
      ∧ (hello.Responder.ctor "Hello").respond "Alice" ≠ "Hello" ++ " " ++ "Alice"
      ∧ ∀ g m : String, (hello.Responder.ctor g).respond m
          ≠ (hello.Responder.ctor g).m_greeting ++ " " ++ m := by
  refine ⟨by decide, by decide, ?_⟩
  intro g m h
  have hl := congrArg String.length h
  have h1 : " ".length = 1 := rfl
  rw [hello.Responder.respond_length] at hl
  simp only [String.length_append, h1] at hl
  omega

/-- C2: for `argv = prog :: [a1, ..., an]` with `argc = n + 1` and arguments that
are C strings (no NUL inside), `util::concat_args` returns each argument
followed by one space, in input order, trailing space included. -/
theorem concat_args_joins (argc : Int) (argv : List String) (prog : String) (args : List String)
    (hargv : argv = prog :: args) (hargc : argc = (args.length : Int) + 1)
    (hnul : ∀ a ∈ args, std.NUL ∉ a.data) :
    util.concat_args argc argv = some (spec_join args) := by
  subst hargv hargc
  rw [util.concat_args_eq]
  have : args.map std.c_str = args := by
    conv_rhs => rw [← List.map_id args]
    exact List.map_congr_left (fun a ha => std.c_str_eq_self a (hnul a ha))
  rw [this]

theorem concat_args_joins_witness :
    util.concat_args 3 ["prog", "foo", "bar"] = some "foo bar " :=
  concat_args_joins 3 ["prog", "foo", "bar"] "prog" ["foo", "bar"] rfl (by decide) (by decide)

/-- C3: run with no arguments (`argc == 1`), `main` appends to standard output
`RESPONDER: Hello Alice`, then a NUL character, then the newline; the output
is not exactly the line `RESPONDER: Hello Alice` and a newline. -/
theorem main_no_args_output_has_nul :
    hello_main.main 1 ["hello"] ⟨""⟩ = some (⟨"RESPONDER: Hello Alice\x00\n"⟩, 0)
      ∧ hello_main.main 1 ["hello"] ⟨""⟩ ≠ some (⟨"RESPONDER: Hello Alice\n"⟩, 0) := by
  rw [hello_main.main_no_args 1 ["hello"] ⟨""⟩ (by decide)]
  decide

/-- C4: run with the arguments `one two` (`argc == 3`), `main` appends to standard
output `RESPONDER: Hello one two `, then a NUL character, then the newline;
the output is not exactly `RESPONDER: Hello one two ` and a newline. -/
theorem main_args_output_has_nul :
    hello_main.main 3 ["hello", "one", "two"] ⟨""⟩
        = some (⟨"RESPONDER: Hello one two \x00\n"⟩, 0)
      ∧ hello_main.main 3 ["hello", "one", "two"] ⟨""⟩
        ≠ some (⟨"RESPONDER: Hello " ++ spec_join ["one", "two"] ++ "\n"⟩, 0) := by
  have h := hello_main.main_args "hello" "one" ["two"] ⟨""⟩
  have e : (((["one", "two"] : List String).length : Int) + 1) = 3 := by decide
  rw [e] at h
  rw [h]
  decide

/-- C5: a Responder constructed without an argument behaves as one constructed
with `"Hello"`, for every message; its response to `"Alice"` is `"Hello Alice"`
followed by a NUL character, not `"Hello Alice"`. -/
theorem default_greeting_response :
    (∀ m : String, hello.Responder.ctor_default.respond m
        = (hello.Responder.ctor "Hello").respond m)
      ∧ hello.Responder.ctor_default.respond "Alice" = "Hello Alice\x00"
      ∧ hello.Responder.ctor_default.respond "Alice" ≠ "Hello Alice" :=
  ⟨fun _ => rfl, by decide, by decide⟩

/-- C6: `respond` is defined for every greeting and message, but the response to
the empty message is the greeting, a space and a NUL character: for
`Responder("Hi")` it is `"Hi "` plus NUL, not `"Hi "`. -/
theorem respond_empty_message_trailing_nul :
    (hello.Responder.ctor "Hi").respond "" = "Hi \x00"
      ∧ (hello.Responder.ctor "Hi").respond "" ≠ "Hi "
      ∧ ∀ g : String, (hello.Responder.ctor g).respond ""
          = (hello.Responder.ctor g).m_greeting ++ " " ++ "\x00" := by
  refine ⟨by decide, by decide, ?_⟩
  intro g
  rw [hello.Responder.respond_eq]
  simp

/-- C7: with `argc <= 1` (no arguments after the program name, or no program
name either) `util::concat_args` returns the empty string. -/
theorem concat_args_no_args (argc : Int) (argv : List String) (h : argc ≤ 1) :
    util.concat_args argc argv = some "" := by
  rw [util.concat_args, util.concat_args.loop_done argc argv 1 _ (by omega)]
  rfl

theorem concat_args_no_args_witness :
    util.concat_args 1 ["prog"] = some "" ∧ util.concat_args 0 [] = some "" :=
  ⟨concat_args_no_args 1 ["prog"] (by decide), concat_args_no_args 0 [] (by decide)⟩

/-- C8: two argument vectors with the same `argc` that differ only in `argv[0]`
give the same result of `util::concat_args` and the same output and exit code
of `main`. -/
theorem program_name_irrelevant (argc : Int) (p q : String) (rest : List String)
    (cout : std.ostream) :
    util.concat_args argc (p :: rest) = util.concat_args argc (q :: rest)
      ∧ hello_main.main argc (p :: rest) cout = hello_main.main argc (q :: rest) cout := by
  have h : util.concat_args argc (p :: rest) = util.concat_args argc (q :: rest) := by
    simp only [util.concat_args]
    rw [util.concat_args.loop_head argc p q rest _ 1 _ rfl (Nat.le_refl 1)]
  exact ⟨h, by simp only [hello_main.main, h]⟩

/-- C9: run statement by statement on the storage it can reach, a `respond` call
writes only its local stream: the greeting of the Responder and the caller's
message are unchanged, and the returned string is the greeting, a space, the
message and NUL, whatever the local's storage held before. So the response to
a message is the same after any sequence of earlier calls, and the same on two
Responders built from the same greeting whatever calls each has served. -/
theorem respond_pure (self : hello.Responder) (g m junk : String)
    (calls calls2 : List String) :
    (self.respond_call m).2 = self
      ∧ ((self.after_calls calls).respond_call m).1 = (self.respond_call m).1
      ∧ (((hello.Responder.ctor g).after_calls calls).respond_call m).1
          = (((hello.Responder.ctor g).after_calls calls2).respond_call m).1
      ∧ hello.Responder.respond_body (hello.Responder.respond_entry self m junk) .m_greeting
          = self.m_greeting
      ∧ hello.Responder.respond_body (hello.Responder.respond_entry self m junk) .message = m
      ∧ hello.Responder.respond_body (hello.Responder.respond_entry self m junk) .captured
          = self.m_greeting ++ " " ++ m ++ "\x00" := by
  refine ⟨hello.Responder.respond_call_snd self m, ?_, ?_, ?_, ?_, ?_⟩
  · rw [hello.Responder.after_calls_eq]
  · rw [hello.Responder.after_calls_eq, hello.Responder.after_calls_eq]
  · rw [hello.Responder.respond_body_m_greeting]
    rfl
  · rw [hello.Responder.respond_body_message]
    rfl
  · rw [hello.Responder.respond_body_captured, hello.Responder.respond_eq]
    rfl

/-- C10: for every argument vector `argv` (with `argc` its length) `main` completes
and returns exit code 0, and no `argc`, `argv` makes it return another code. -/
theorem main_returns_zero (argv : List String) (cout : std.ostream) :
    (∃ cout2, hello_main.main (argv.length : Int) argv cout = some (cout2, 0))
      ∧ ∀ (argc : Int) (cout2 : std.ostream) (code : Int),
          hello_main.main argc argv cout = some (cout2, code) → code = 0 := by
  constructor
  · match argv with
    | [] => exact ⟨_, hello_main.main_no_args _ _ _ (by simp)⟩
    | [_] => exact ⟨_, hello_main.main_no_args _ _ _ (by simp)⟩
    | prog :: a :: args => exact ⟨_, hello_main.main_args prog a args cout⟩
  · intro argc cout2 code h
    simp only [hello_main.main] at h
    split at h
    · exact absurd h (by simp)
    · simp only [Option.some.injEq, Prod.mk.injEq] at h
      exact h.2.symm

theorem main_returns_zero_witness :
    ∃ cout2, hello_main.main 3 ["hello", "one", "two"] ⟨""⟩ = some (cout2, 0) :=
  (main_returns_zero ["hello", "one", "two"] ⟨""⟩).1

/-- C11: for a greeting `g` that is a C string (no NUL inside) and every message
`m`, `Responder(g).respond(m)` is `g`, a space, `m` and the NUL character
written by `std::ends`; it ends with NUL and has length `|g| + |m| + 2`. -/
theorem respond_ends_with_nul (g m : String) (hg : std.NUL ∉ g.data) :
    (hello.Responder.ctor g).respond m = g ++ " " ++ m ++ "\x00"
      ∧ ((hello.Responder.ctor g).respond m).data.getLast? = some std.NUL
      ∧ ((hello.Responder.ctor g).respond m).length = g.length + m.length + 2 := by
  have hgreet : (hello.Responder.ctor g).m_greeting = g := std.c_str_eq_self g hg
  have heq := hello.Responder.respond_eq (hello.Responder.ctor g) m
  have hlen := hello.Responder.respond_length (hello.Responder.ctor g) m
  rw [hgreet] at heq hlen
  refine ⟨heq, ?_, hlen⟩
  rw [heq]
  have hnul : ("\x00" : String).data = [std.NUL] := rfl
  simp only [String.data_append, hnul]
  exact List.getLast?_concat _

theorem respond_ends_with_nul_witness :
    (hello.Responder.ctor "Hello").respond "Alice" = "Hello" ++ " " ++ "Alice" ++ "\x00"
      ∧ ((hello.Responder.ctor "Hello").respond "Alice").data.getLast? = some std.NUL
      ∧ ((hello.Responder.ctor "Hello").respond "Alice").length
          = "Hello".length + "Alice".length + 2 :=
  respond_ends_with_nul "Hello" "Alice" (by decide)

/-- C12: the `main` of tests/hello/test_Responder.cpp and the `main` of
program_hello/hello_main.cpp write the same text to standard output and return
the same exit code, for every `argc`, `argv` and state of the output on entry. -/
theorem mains_agree (argc : Int) (argv : List String) (cout : std.ostream) :
    test_Responder.main argc argv cout = hello_main.main argc argv cout := by
  simp only [test_Responder.main, hello_main.main]

/-- C13: on argument lists whose arguments are C strings without a space,
`util::concat_args` is injective: equal results come from equal argument
lists, whatever the program names. Without the space-free condition this
fails: the lists `["a b"]` and `["a", "b"]` both give `"a b "`. -/
theorem concat_args_injective_space_free :
    (∀ (p q : String) (xs ys : List String),
        (∀ a ∈ xs, std.NUL ∉ a.data ∧ ' ' ∉ a.data) →
        (∀ a ∈ ys, std.NUL ∉ a.data ∧ ' ' ∉ a.data) →
        util.concat_args ((xs.length : Int) + 1) (p :: xs)
          = util.concat_args ((ys.length : Int) + 1) (q :: ys) →
        xs = ys)
      ∧ (util.concat_args 2 ["prog", "a b"] = some "a b "
          ∧ util.concat_args 3 ["prog", "a", "b"] = some "a b "
          ∧ (["a b"] : List String) ≠ ["a", "b"]) := by
  refine ⟨?_, ?_, ?_, by decide⟩
  · intro p q xs ys hx hy h
    rw [util.concat_args_eq, util.concat_args_eq,
      std.map_c_str_eq_self xs (fun a ha => (hx a ha).1),
      std.map_c_str_eq_self ys (fun a ha => (hy a ha).1)] at h
    exact spec_join_injective xs ys (fun a ha => (hx a ha).2) (fun a ha => (hy a ha).2)
      (Option.some.inj h)
  · exact util.concat_args_eq "prog" ["a b"]
  · exact util.concat_args_eq "prog" ["a", "b"]

theorem concat_args_injective_space_free_witness :
    (∀ a ∈ (["foo", "bar"] : List String), std.NUL ∉ a.data ∧ ' ' ∉ a.data)
      ∧ (["foo", "bar"] : List String) = ["foo", "bar"] :=
  ⟨by decide,
    concat_args_injective_space_free.1 "prog" "hello" ["foo", "bar"] ["foo", "bar"]
      (by decide) (by decide)
      (by rw [util.concat_args_eq, util.concat_args_eq])⟩

/-- C14: `util::concat_args` maps list append to string concatenation: the result
for the arguments `xs ++ ys` is the result for `xs` followed by the result for
`ys`; and the length of the result for `xs` is the sum of the lengths of the
arguments (as C strings) plus the number of arguments. -/
theorem concat_args_append (p : String) (xs ys : List String) :
    ∃ rx ry : String,
      util.concat_args ((xs.length : Int) + 1) (p :: xs) = some rx
        ∧ util.concat_args ((ys.length : Int) + 1) (p :: ys) = some ry
        ∧ util.concat_args (((xs ++ ys).length : Int) + 1) (p :: (xs ++ ys)) = some (rx ++ ry)
        ∧ rx.length = (xs.map (fun a => (std.c_str a).length)).sum + xs.length := by
  refine ⟨_, _, util.concat_args_eq p xs, util.concat_args_eq p ys, ?_, ?_⟩
  · rw [util.concat_args_eq, List.map_append, spec_join_append]
  · rw [spec_join_length, List.map_map, List.length_map]
    rfl
